import Mathlib

/-!
Verification of the crawl-extract-reconcile-monitor pipeline of the
automotive inventory tracker (backend).

The Lean definitions below are shallow embeddings of the Python source:

* `src/backend/scrape_real.py` — the reconciliation (DB upsert loop of
  `main`, `build_vehicle_record` price/mileage cleaning);
* `src/backend/app/routers/monitor.py` — `_compare_inventory`;
* `src/backend/app/scraper/parser.py` — `_parse_price`, `_parse_number`;
* `src/backend/app/routers/scrape.py` — `trigger_scrape`;
* `src/backend/app/scraper/utils.py` — `retry_with_backoff`,
  `has_dealer_frame`, `remove_dealer_frame`;
* `src/backend/app/tasks.py` — the `run_scrape` DB sync counting.

Python dynamic values stored in tracked vehicle fields are modelled by
`PyVal`; Python floats and decimals are modelled by rationals.  The
`price` column is `Numeric(12, 2)` (models.py) on SQLite (no native
decimal support), so a float committed by one run is read back by the
next as `decimal.Decimal` at scale 2, whose `str` rendering differs from
the float's — `commitReload` models this cross-run round-trip.
External effects (database reads/writes, subprocesses, PIL decoding) are
modelled by explicit state passing and `Option`-valued oracle parameters;
a Python exception caught by the code corresponds to a `none` result.
-/

/-- Python `str()` of a float: integral values render with a single
trailing zero (`str(28995.0) = "28995.0"`); the rendering of
non-integral values is abstracted by `toString` on the rational (the
proofs only use that it is a function of the value). -/

def floatStr (q : ℚ) : String :=
  if q.den = 1 then toString q.num ++ ".0" else toString q

/-- Python `str()` of the `decimal.Decimal` produced when a
`Numeric(12, 2)` column is read back through SQLAlchemy's SQLite result
processor (`Decimal("%.2f" % value)`): the value rendered with exactly
two decimal places (`str(Decimal('28995.00')) = "28995.00"`; the
rounding of a third decimal digit is immaterial to the values arising
here and is modelled as round-half-up). -/

def decimal2Str (q : ℚ) : String :=
  let centsAbs : Nat := (q.num.natAbs * 100 * 2 + q.den) / (2 * q.den)
  (if q.num < 0 then "-" else "") ++ toString (centsAbs / 100) ++ "." ++
    (if centsAbs % 100 < 10 then "0" else "") ++ toString (centsAbs % 100)



/-- A Python value as stored in a tracked field of a vehicle record:
`None`, a string, an int, a float, or a `decimal.Decimal` at scale 2 (as
returned for the `Numeric(12, 2)` price column, see `commitReload`);
floats and decimals carry their exact rational value. -/

inductive PyVal where
  | vNone : PyVal
  | vStr (s : String) : PyVal
  | vInt (n : Int) : PyVal
  | vFloat (q : ℚ) : PyVal
  | vDecimal (q : ℚ) : PyVal
deriving DecidableEq, Repr

namespace PyVal

/-- Python `str(v)`. -/

def pyStr : PyVal → String
  | vNone => "None"
  | vStr s => s
  | vInt n => toString n
  | vFloat q => floatStr q
  | vDecimal q => decimal2Str q

/-- Python truthiness of a field value (`bool(v)`). -/

def truthy : PyVal → Bool
  | vNone => false
  | vStr s => s ≠ ""
  | vInt n => n ≠ 0
  | vFloat q => q ≠ 0
  | vDecimal q => q ≠ 0

/-- `str(v) if v is not None else ""` — the per-field normalization used
by the change-detection loop of `scrape_real.main`. -/

def normStr : PyVal → String
  | vNone => ""
  | v => pyStr v

/-- `str(v or "")` — the normalization used by the price-history check of
`scrape_real.main` (a falsy value, e.g. `None` or `0.0`, becomes `""`). -/

def orEmptyStr (v : PyVal) : String :=
  if v.truthy then v.pyStr else ""

end PyVal

/-- The tracked vehicle fields, exactly `_tracked_fields` of
`scrape_real.py` (stock_number, year, make, model, trim, price, mileage,
exterior_color, interior_color, body_style, drivetrain, engine,
transmission, detail_url). -/

inductive VField where
  | stock_number | year | make | model | trim | price | mileage
  | exterior_color | interior_color | body_style | drivetrain
  | engine | transmission | detail_url
deriving DecidableEq, Repr

namespace VField

/-- The field name string, as used in `field_name` of change-log rows. -/

def name : VField → String
  | stock_number => "stock_number"
  | year => "year"
  | make => "make"
  | model => "model"
  | trim => "trim"
  | price => "price"
  | mileage => "mileage"
  | exterior_color => "exterior_color"
  | interior_color => "interior_color"
  | body_style => "body_style"
  | drivetrain => "drivetrain"
  | engine => "engine"
  | transmission => "transmission"
  | detail_url => "detail_url"

end VField

/-- `_tracked_fields` of `scrape_real.py`, in source order. -/

def trackedFields : List VField :=
  [.stock_number, .year, .make, .model, .trim,
   .price, .mileage, .exterior_color, .interior_color,
   .body_style, .drivetrain, .engine, .transmission,
   .detail_url]

/-! ## String cleaning and number parsing

Embeds `_parse_price` / `_parse_number` of `app/scraper/parser.py` and
the price/mileage cleaning of `build_vehicle_record` in
`scrape_real.py`. -/

/-- `re.sub(r"[^\d.]", "", text)`: keep only ASCII digits and `.`. -/

def cleanPriceChars (s : String) : String :=
  String.mk (s.data.filter (fun c => c.isDigit || c == '.'))

/-- `re.sub(r"[^\d]", "", text)`: keep only ASCII digits. -/

def cleanDigitChars (s : String) : String :=
  String.mk (s.data.filter (fun c => c.isDigit))

/-- Interpret a nonempty all-digit string as a natural number
(`int(s)` on such strings). -/

def digitsToNat? (s : String) : Option Nat :=
  if s ≠ "" ∧ s.data.all (fun c => c.isDigit) then
    some (s.data.foldl (fun acc c => acc * 10 + (c.toNat - '0'.toNat)) 0)
  else
    none

/-- Split a character list at every `'.'` (the semantics of Python's
`s.split(".")` on the character level: `""` gives `[""]`, `"."` gives
`["", ""]`). -/

def splitOnDot : List Char → List (List Char)
  | [] => [[]]
  | c :: rest =>
    match splitOnDot rest with
    | [] => [[]]
    | p :: ps => if c == '.' then [] :: p :: ps else (c :: p) :: ps

/-- Numeric value of a digit list (most significant first). -/

def digitsVal (cs : List Char) : Nat :=
  cs.foldl (fun acc c => acc * 10 + (c.toNat - '0'.toNat)) 0

/-- Python `float(s)` on a string containing only digits and dots,
returning `none` exactly when `float` raises `ValueError`:
no digits at all, or more than one dot.  `"1."` and `".5"` are accepted,
`"."`, `""` and `"1.2.3"` are rejected. -/

def pyFloat? (s : String) : Option ℚ :=
  match splitOnDot s.data with
  | [w] =>
    if w ≠ [] ∧ w.all (fun c => c.isDigit) then some ((digitsVal w : ℚ)) else none
  | [a, b] =>
    if a = [] ∧ b = [] then none
    else if a.all (fun c => c.isDigit) ∧ b.all (fun c => c.isDigit) then
      some ((digitsVal a : ℚ) + (digitsVal b : ℚ) / (10 : ℚ) ^ b.length)
    else none
  | _ => none

/-- `_parse_price` of `app/scraper/parser.py`: strip to digits and dot,
parse as float, return `None` when parsing fails or the value is not
strictly positive (a cleaned price of zero yields `None`). -/

def _parse_price (text : Option String) : Option ℚ :=
  match text with
  | none => none
  | some t =>
    if t = "" then none
    else
      match pyFloat? (cleanPriceChars t) with
      | none => none
      | some p => if p > 0 then some p else none

/-- `_parse_number` of `app/scraper/parser.py`: strip to digits, parse as
int, `None` on an empty cleaned string. -/

def _parse_number (text : Option String) : Option Int :=
  match text with
  | none => none
  | some t =>
    if t = "" then none
    else
      let cleaned := cleanDigitChars t
      if cleaned = "" then none
      else (digitsToNat? cleaned).map Int.ofNat

/-- The price branch of `build_vehicle_record` in `scrape_real.py`:
`cleaned = re.sub(r'[^\d.]', '', price_str)` then
`record["price"] = float(cleaned) if cleaned else None`, with a
`ValueError` producing `None`.  Note: unlike `_parse_price`, a cleaned
price of `"0"` yields the float `0.0`, not `None`. -/

def build_vehicle_record_price (price_str : String) : Option ℚ :=
  let cleaned := cleanPriceChars price_str
  if cleaned = "" then none else pyFloat? cleaned

/-- The mileage branch of `build_vehicle_record` in `scrape_real.py`:
`cleaned = re.sub(r'[^\d]', '', str(mileage_str))` then
`record["mileage"] = int(cleaned) if cleaned else None`. -/

def build_vehicle_record_mileage (mileage_str : String) : Option Int :=
  let cleaned := cleanDigitChars mileage_str
  if cleaned = "" then none else (digitsToNat? cleaned).map Int.ofNat

/-! ## Drift Monitor comparison (`_compare_inventory` of
`app/routers/monitor.py`)

The function receives the website vehicle list produced by
`_quick_website_check` (whose VINs we model directly; the scan already
deduplicates via `seen_vins`) and the set of active local VINs (the DB
enforces VIN uniqueness).  It forms the two Python sets
`website_vins` / `local_vins`, walks the sorted intersection counting
`matched`, tags per-VIN statuses, and computes `missing_locally` and
`extra_locally` as set differences; `changed` is initialised to `0` and
never incremented. -/

structure InventoryComparison where
  website_count : Nat
  local_count : Nat
  matched : Nat
  missing_locally : Nat
  extra_locally : Nat
  changed : Nat
  vehicles : List (String × String)
  pages_checked : Nat
deriving Repr, DecidableEq

/-- `_compare_inventory` of `app/routers/monitor.py` (the pure
comparison between the scanned website VINs and the active local VINs;
network fetching and progress-file writes are outside the model). -/

def _compare_inventory (websiteVehicles : List String) (localVins : Finset String)
    (maxPages : Nat) : InventoryComparison :=
  let websiteVins : Finset String := websiteVehicles.toFinset
  let matchedList := (websiteVins ∩ localVins).sort (· ≤ ·)
  let missingList := (websiteVins \ localVins).sort (· ≤ ·)
  let extraList := (localVins \ websiteVins).sort (· ≤ ·)
  { website_count := websiteVehicles.length
    local_count := localVins.card
    matched := matchedList.length
    missing_locally := (websiteVins \ localVins).card
    extra_locally := (localVins \ websiteVins).card
    changed := 0
    vehicles := matchedList.map (fun v => (v, "match"))
      ++ missingList.map (fun v => (v, "missing_local"))
      ++ extraList.map (fun v => (v, "missing_remote"))
    pages_checked := if maxPages = 0 then 99 else maxPages }

/-! ## Reconciliation (`main` of `scrape_real.py`, step 3: DB upsert)

The persisted catalog is modelled as an association list keyed by VIN
(the database enforces a unique index on `vin`; `select` by VIN returns
the first matching row, and an in-run insert is visible to later
lookups, matching SQLAlchemy's autoflush).  A vehicle row carries its
tracked-field values, its photo list and the `is_active` flag;
timestamps and the integer primary key do not affect any claim and are
omitted. -/

/-- A persisted vehicle row (the tracked columns of `Vehicle`). -/

structure DBVehicle where
  fields : VField → PyVal
  photos : List String
  is_active : Bool

/-- A fresh record produced by `build_vehicle_record` plus the photo
download step (`record["photos"]` is always set before the upsert). -/

structure FreshRecord where
  vin : String
  fields : VField → PyVal
  photos : List String

/-- A `VehicleChangeLog` row (timestamps and task id omitted — they are
constant within a run and irrelevant to the claims). -/

structure ChangeEntry where
  vin : String
  change_type : String
  field_name : Option String
  old_value : Option String
  new_value : Option String
deriving DecidableEq, Repr

/-- A `VehiclePriceHistory` row. -/

structure PriceEntry where
  vin : String
  price : PyVal
deriving DecidableEq, Repr

/-- First row with the given VIN (`select(Vehicle).where(Vehicle.vin == vin)`). -/

def lookupVin (catalog : List (String × DBVehicle)) (vin : String) : Option DBVehicle :=
  match catalog with
  | [] => none
  | (k, veh) :: rest => if k = vin then some veh else lookupVin rest vin

/-- Overwrite the first row with the given VIN. -/

def setVin (catalog : List (String × DBVehicle)) (vin : String) (veh : DBVehicle) :
    List (String × DBVehicle) :=
  match catalog with
  | [] => []
  | (k, w) :: rest =>
    if k = vin then (k, veh) :: rest else (k, w) :: setVin rest vin veh

/-- The mutable state threaded through the upsert loop of
`scrape_real.main`: the catalog, the change-log and price-history rows
appended so far by this run, the two counters, and `scraped_vins`
(as a list in insertion order). -/

structure RunState where
  catalog : List (String × DBVehicle)
  log : List ChangeEntry
  prices : List PriceEntry
  nNew : Nat
  nUpd : Nat
  scraped : List String

/-- The per-field change-detection loop (`for field in _tracked_fields`)
for an existing row: one `"updated"` change-log entry per field whose
normalized strings differ. -/

def updatedEntries (vin : String) (existing : DBVehicle) (v : FreshRecord) :
    List ChangeEntry :=
  trackedFields.filterMap (fun f =>
    let old_str := (existing.fields f).normStr
    let new_str := (v.fields f).normStr
    if old_str ≠ new_str then
      some ⟨vin, "updated", some f.name, some old_str, some new_str⟩
    else none)

/-- One iteration of the upsert loop of `scrape_real.main` (lines
709-797): skip a falsy VIN, add it to `scraped_vins`, then either update
an existing row (logging per-field changes, a price-history row on a
price change, and a reactivation if the row was inactive; finally
overwriting every tracked field, the photos, and setting it active) or
insert a new row (logging `"new"` and a price-history row when the price
is not `None`). -/

def upsertOne (st : RunState) (v : FreshRecord) : RunState :=
  if v.vin = "" then st
  else
    let st1 := { st with scraped := st.scraped ++ [v.vin] }
    match lookupVin st1.catalog v.vin with
    | some existing =>
      let updEntries := updatedEntries v.vin existing v
      let priceEntries :=
        if (existing.fields .price).orEmptyStr ≠ (v.fields .price).orEmptyStr then
          [PriceEntry.mk v.vin (v.fields .price)]
        else []
      let reactEntries :=
        if existing.is_active then []
        else [ChangeEntry.mk v.vin "reactivated" (some "is_active") (some "False") (some "True")]
      { st1 with
        catalog := setVin st1.catalog v.vin ⟨v.fields, v.photos, true⟩
        log := st1.log ++ updEntries ++ reactEntries
        prices := st1.prices ++ priceEntries
        nUpd := st1.nUpd + 1 }
    | none =>
      { st1 with
        catalog := st1.catalog ++ [(v.vin, ⟨v.fields, v.photos, true⟩)]
        log := st1.log ++ [ChangeEntry.mk v.vin "new" none none none]
        prices := st1.prices ++
          (if v.fields .price ≠ .vNone then [PriceEntry.mk v.vin (v.fields .price)] else [])
        nNew := st1.nNew + 1 }

/-- The removal loop of `scrape_real.main` (lines 799-812): every active
row whose VIN is not in `scraped_vins` is marked inactive and yields one
`"removed"` change-log entry. -/

def removedFlag (scraped : List String) (k : String) (veh : DBVehicle) : Bool :=
  veh.is_active && !(scraped.contains k)

/-- The effect of the removal loop on one row: an active row whose VIN
was not scraped is marked inactive, any other row is untouched. -/

def removalAdjust (scraped : List String) (k : String) (veh : DBVehicle) : DBVehicle :=
  if removedFlag scraped k veh then { veh with is_active := false } else veh

/-- The `"removed"` change-log row for a VIN. -/

def removedEntryOf (k : String) : ChangeEntry :=
  ⟨k, "removed", some "is_active", some "True", some "False"⟩

def removalPhase (scraped : List String) (catalog : List (String × DBVehicle)) :
    List (String × DBVehicle) × List ChangeEntry × Nat :=
  (catalog.map (fun p => (p.1, removalAdjust scraped p.1 p.2)),
   (catalog.filter (fun p => removedFlag scraped p.1 p.2)).map (fun p => removedEntryOf p.1),
   (catalog.filter (fun p => removedFlag scraped p.1 p.2)).length)

/-- Result of one reconciliation run. -/

structure RunResult where
  catalog : List (String × DBVehicle)
  changeLog : List ChangeEntry
  priceHistory : List PriceEntry
  vehicles_new : Nat
  vehicles_updated : Nat
  vehicles_removed : Nat
  scraped : List String

/-- The reconciliation of `scrape_real.main` step 3: the upsert loop
over every fresh record, followed by the removal loop.  `changeLog` and
`priceHistory` are the rows *appended by this run*. -/

def scrapeRealRun (catalog : List (String × DBVehicle)) (snapshot : List FreshRecord) :
    RunResult :=
  let st := snapshot.foldl upsertOne ⟨catalog, [], [], 0, 0, []⟩
  let rem := removalPhase st.scraped st.catalog
  ⟨rem.1, st.log ++ rem.2.1, st.prices, st.nNew, st.nUpd, rem.2.2, st.scraped⟩

/-- The type coercion a committed catalog undergoes before the next run
reads it.  `Vehicle.price` is a `Numeric(12, 2)` column (models.py) and
the datastore is SQLite (`sqlite+aiosqlite`), which has no native
decimal support: SQLAlchemy's result processor converts the stored
value to `decimal.Decimal` at the column's scale
(`Decimal("%.2f" % value)`), so a Python float written by one run is
read back by the next as a Decimal.  Every other tracked column
(strings, `Integer` year and mileage, `Text` URL) round-trips
unchanged. -/

def reloadVal : VField → PyVal → PyVal
  | .price, .vFloat q => .vDecimal q
  | _, v => v

def reloadVehicle (veh : DBVehicle) : DBVehicle :=
  { veh with fields := fun f => reloadVal f (veh.fields f) }

/-- The catalog state a later run observes after an earlier run's
`session.commit()`: every row re-read through the column result
processors. -/

def commitReload (catalog : List (String × DBVehicle)) :
    List (String × DBVehicle) :=
  catalog.map (fun p => (p.1, reloadVehicle p.2))

/-- `scraped_vins` collected by the loop: the VINs of the records with a
truthy VIN, in order. -/

def scrapedOf (s : List FreshRecord) : List String :=
  (s.filter (fun r => r.vin ≠ "")).map FreshRecord.vin

/-! ## Counting audit entries of a given type for a given VIN -/

def isEntryType (t vin : String) (e : ChangeEntry) : Bool :=
  e.change_type == t && e.vin == vin

def countType (t vin : String) (log : List ChangeEntry) : Nat :=
  (log.filter (isEntryType t vin)).length

/-- The change-log entries appended by one iteration of the upsert loop,
as a function of the catalog it sees. -/

def upsertLogOf (catalog : List (String × DBVehicle)) (v : FreshRecord) :
    List ChangeEntry :=
  if v.vin = "" then []
  else
    match lookupVin catalog v.vin with
    | some existing =>
      updatedEntries v.vin existing v ++
        (if existing.is_active then []
         else [⟨v.vin, "reactivated", some "is_active", some "False", some "True"⟩])
    | none => [⟨v.vin, "new", none, none, none⟩]

/-! ## The Celery-path DB sync (`run_scrape` of `app/tasks.py`)

Only the per-record counting behaviour is modelled: for an existing VIN
the Celery path overwrites a field only when the fresh value is not
`None` and differs from the stored one, marks the row changed, and
increments `updated_count` only when at least one field changed;
`photos` (always a list in the scraped dict) and `detail_url` take part
in the same loop. -/

def tasksFieldsBeforePhotos : List VField :=
  [.stock_number, .year, .make, .model, .trim, .price, .mileage,
   .exterior_color, .interior_color, .body_style, .drivetrain,
   .engine, .transmission]

/-- Whether the `run_scrape` field loop sets `changed = True` for an
existing row (`new_val is not None and new_val != getattr(existing, field)`
for some field in its list, with `photos` compared as a list). -/

def tasksChanged (existing : DBVehicle) (v : FreshRecord) : Bool :=
  (tasksFieldsBeforePhotos.any
    (fun f => (v.fields f != PyVal.vNone) && (v.fields f != existing.fields f)))
  || (existing.photos != v.photos)
  || ((v.fields .detail_url != PyVal.vNone) &&
      (v.fields .detail_url != existing.fields .detail_url))

/-- The effect of the `run_scrape` field loop on an existing row: each
differing non-`None` fresh value overwrites the stored one, and the row
is marked active only when something changed. -/

def tasksApply (existing : DBVehicle) (v : FreshRecord) : DBVehicle :=
  { fields := fun f =>
      if (v.fields f != PyVal.vNone) && (v.fields f != existing.fields f) then
        v.fields f
      else existing.fields f
    photos := if existing.photos != v.photos then v.photos else existing.photos
    is_active := if tasksChanged existing v then true else existing.is_active }

/-- Counting state of the `run_scrape` sync loop. -/

structure TasksState where
  catalog : List (String × DBVehicle)
  new_count : Nat
  updated_count : Nat

/-- One iteration of the `run_scrape` sync loop of `app/tasks.py`
(lines 128-176): `updated_count` is incremented only when `changed`. -/

def tasksUpsertOne (st : TasksState) (v : FreshRecord) : TasksState :=
  if v.vin = "" then st
  else
    match lookupVin st.catalog v.vin with
    | some existing =>
      if tasksChanged existing v then
        { st with catalog := setVin st.catalog v.vin (tasksApply existing v)
                  updated_count := st.updated_count + 1 }
      else st
    | none =>
      { st with catalog := st.catalog ++ [(v.vin, ⟨v.fields, v.photos, true⟩)]
                new_count := st.new_count + 1 }

/-- The sync-loop counters of `run_scrape` over a snapshot. -/

def tasksRunCounts (catalog : List (String × DBVehicle))
    (snapshot : List FreshRecord) : TasksState :=
  snapshot.foldl tasksUpsertOne ⟨catalog, 0, 0⟩

/-! ## Single-flight trigger (`trigger_scrape` of `app/routers/scrape.py`)

The Run Records (`ScrapeLog` rows) are kept most-recent-first, so the
query `status == RUNNING ORDER BY started_at DESC LIMIT 1` is the first
list element with status `"running"`.  `_running_pids` is the
module-level task-id → pid map, and process liveness (`os.kill(pid, 0)`)
is an oracle parameter.  Progress-file writes and the response body are
outside the model; timestamps and counters of a row are omitted. -/

structure ScrapeLogRow where
  task_id : String
  status : String
  log_output : String
deriving DecidableEq, Repr

structure TriggerState where
  logs : List ScrapeLogRow
  pids : List (String × Nat)
deriving DecidableEq, Repr

inductive TriggerOutcome where
  | conflict (running_task_id : String) : TriggerOutcome
  | launched (task_id : String) : TriggerOutcome
deriving DecidableEq, Repr

def lookupPid (pids : List (String × Nat)) (tid : String) : Option Nat :=
  match pids with
  | [] => none
  | (k, p) :: rest => if k = tid then some p else lookupPid rest tid

/-- The latest Run Record with status `"running"`. -/

def firstRunning (logs : List ScrapeLogRow) : Option ScrapeLogRow :=
  logs.find? (fun l => l.status == "running")

/-- `running_log.status = FAILED; running_log.log_output = "Process
exited unexpectedly."` applied to the row `firstRunning` found. -/

def markFirstRunningFailed : List ScrapeLogRow → List ScrapeLogRow
  | [] => []
  | l :: rest =>
    if l.status == "running" then
      { l with status := "failed", log_output := "Process exited unexpectedly." } :: rest
    else l :: markFirstRunningFailed rest

def newRunRow (task_id : String) (pagesLabel : String) : ScrapeLogRow :=
  ⟨task_id, "running", "Scrape starting (pages=" ++ pagesLabel ++ ")..."⟩

/-- `trigger_scrape` of `app/routers/scrape.py` (lines 72-141).
`alive` is the `os.kill(pid, 0)` probe, `newTaskId` the generated
`scrape-<uuid>` id, `newPid` the pid of the spawned subprocess.
An HTTP 409 is `TriggerOutcome.conflict` and leaves the state unchanged;
otherwise a stale running row (pid missing, zero, or dead) is first
marked failed, and a new running row and pid entry are added.
(The `scrape_real.py`-missing 500 branch cannot trigger: the script is
part of the repository.) -/

def trigger_scrape (alive : Nat → Bool) (newTaskId : String) (newPid : Nat)
    (pages : Nat) (st : TriggerState) : TriggerOutcome × TriggerState :=
  let pagesLabel := if pages = 0 then "all" else toString pages
  match firstRunning st.logs with
  | some rl =>
    match lookupPid st.pids rl.task_id with
    | some pid =>
      if pid ≠ 0 ∧ alive pid then (.conflict rl.task_id, st)
      else
        (.launched newTaskId,
         ⟨newRunRow newTaskId pagesLabel :: markFirstRunningFailed st.logs,
          st.pids ++ [(newTaskId, newPid)]⟩)
    | none =>
      (.launched newTaskId,
       ⟨newRunRow newTaskId pagesLabel :: markFirstRunningFailed st.logs,
        st.pids ++ [(newTaskId, newPid)]⟩)
  | none =>
    (.launched newTaskId,
     ⟨newRunRow newTaskId pagesLabel :: st.logs,
      st.pids ++ [(newTaskId, newPid)]⟩)

/-! ## Retry with exponential backoff (`retry_with_backoff` of
`app/scraper/utils.py`)

The wrapped coroutine is an oracle `f : Nat → Except E A` giving the
outcome of each attempt (index `k` for the `k`-th call), and the random
jitter is an oracle `jitter : Nat → ℚ` (`random.uniform(0, 1)` at the
`k`-th failure).  The function returns the result — `Except (Option E) A`,
where `.error (some e)` models `raise last_exception` and
`.error none` the degenerate `raise None` of `max_retries = 0` — paired
with the trace of `asyncio.sleep` durations. -/

def retryLoop {E A : Type} (f : Nat → Except E A) (max_retries : Nat)
    (base_delay : ℚ) (jitter : Nat → ℚ) :
    Nat → Nat → Option E → List ℚ → Except (Option E) A × List ℚ
  | _, 0, last, sleeps => (.error last, sleeps)
  | attempt, fuel + 1, _, sleeps =>
    match f attempt with
    | .ok a => (.ok a, sleeps)
    | .error e =>
      retryLoop f max_retries base_delay jitter (attempt + 1) fuel (some e)
        (if attempt < max_retries - 1 then
          sleeps ++ [base_delay * 2 ^ attempt + jitter attempt]
        else sleeps)

/-- `retry_with_backoff` of `app/scraper/utils.py` (lines 30-57): the
`for attempt in range(max_retries)` loop, sleeping
`base_delay * 2 ** attempt + random.uniform(0, 1)` after every failed
attempt except the last, and re-raising the last exception after the
loop. -/

def retry_with_backoff {E A : Type} (f : Nat → Except E A) (max_retries : Nat)
    (base_delay : ℚ) (jitter : Nat → ℚ) : Except (Option E) A × List ℚ :=
  retryLoop f max_retries base_delay jitter 0 max_retries none []

/-! ## Dealer-frame detection and removal (`has_dealer_frame` /
`remove_dealer_frame` of `app/scraper/utils.py`)

A decoded image is an `h × w` grid of RGB pixels (`np.array(img)` of
shape `(h, w, 3)`; `arr[i, j]` is row `i`, column `j`).  Python's
`int(h * 0.12)` etc. are modelled as `h * 12 / 100` with natural-number
truncating division.  A pixel is "bright" when all three channels exceed
230 (`np.all(arr > 230, axis=2)`).  The brightness ratios are exact
rationals; the source computes the same expressions in floating point. -/

structure RGBImage where
  h : Nat
  w : Nat
  px : Nat → Nat → Nat × Nat × Nat

def isBrightPx (p : Nat × Nat × Nat) : Bool :=
  decide (230 < p.1) && decide (230 < p.2.1) && decide (230 < p.2.2)

/-- `np.sum(np.all(band > 230, axis=2))` for the band of `rows` rows
starting at row `r0` and `cols` columns starting at column `c0`. -/

def brightCount (img : RGBImage) (r0 rows c0 cols : Nat) : Nat :=
  ((List.range rows).map (fun i =>
    ((List.range cols).filter (fun j => isBrightPx (img.px (r0 + i) (c0 + j)))).length)).sum

/-- `has_dealer_frame` of `app/scraper/utils.py` (lines 66-99): images
smaller than 100 px in either dimension are never classified; otherwise
the top-left band (top 12% of rows × left 30% of columns) and the
bottom-right band (bottom 7% of rows × right 50% of columns) are
sampled, and the frame is detected iff the bright-pixel percentage
exceeds 40 in the first band and 30 in the second. -/

def has_dealer_frame (img : RGBImage) : Bool :=
  if img.h < 100 ∨ img.w < 100 then false
  else
    let tl_h := img.h * 12 / 100
    let tl_w := img.w * 30 / 100
    let tl_white : ℚ :=
      (brightCount img 0 tl_h 0 tl_w : ℚ) / ((tl_h * tl_w : Nat) : ℚ) * 100
    let br_h := img.h * 7 / 100
    let br_w := img.w * 50 / 100
    let br_white : ℚ :=
      (brightCount img (img.h - br_h) br_h (img.w - br_w) br_w : ℚ) /
        ((br_h * br_w : Nat) : ℚ) * 100
    decide (40 < tl_white) && decide (30 < br_white)

/-- `img.crop((left, upper, right, lower))` of PIL: the rows
`upper ≤ i < lower` and columns `left ≤ j < right`. -/

def cropImage (img : RGBImage) (left top right bottom : Nat) : RGBImage :=
  ⟨bottom - top, right - left, fun i j => img.px (top + i) (left + j)⟩

/-- `remove_dealer_frame` of `app/scraper/utils.py` (lines 102-130):
small images are returned unchanged, otherwise the crop
`(0, int(h*0.13), w, h - int(h*0.07))`. -/

def remove_dealer_frame (img : RGBImage) : RGBImage :=
  if img.h < 100 ∨ img.w < 100 then img
  else cropImage img 0 (img.h * 13 / 100) img.w (img.h - img.h * 7 / 100)

/-- The spec-side bright-pixel percentage of a band, stated over the set
of pixel coordinates of the band (to be compared with the code's
row-by-row count). -/

def bandBrightRatio (img : RGBImage) (r0 rows c0 cols : Nat) : ℚ :=
  ((((Finset.range rows) ×ˢ (Finset.range cols)).filter
      (fun p => isBrightPx (img.px (r0 + p.1) (c0 + p.2)) = true)).card : ℚ) /
    ((rows * cols : Nat) : ℚ) * 100

/-- `has_dealer_frame` at its byte interface: `decode` models
`PIL.Image.open` on the bytes followed by `np.array`, producing the
pixel grid, with `none` for any exception the blanket handler catches
(undecodable bytes, non-RGB shape). -/

def has_dealer_frame_bytes (decode : List Nat → Option RGBImage)
    (img_bytes : List Nat) : Bool :=
  match decode img_bytes with
  | none => false
  | some img => has_dealer_frame img

/-- `remove_dealer_frame` at its byte interface: `encodeJpeg` models
`cropped.save(out, format="JPEG", quality=95)`, with `none` for an
encoding failure; every caught exception returns the original bytes. -/

def remove_dealer_frame_bytes (decode : List Nat → Option RGBImage)
    (encodeJpeg : RGBImage → Option (List Nat)) (img_bytes : List Nat) :
    List Nat :=
  match decode img_bytes with
  | none => img_bytes
  | some img =>
    if img.h < 100 ∨ img.w < 100 then img_bytes
    else
      match encodeJpeg (cropImage img 0 (img.h * 13 / 100) img.w
          (img.h - img.h * 7 / 100)) with
      | some out => out
      | none => img_bytes

/-! ## Concrete sample inputs -/

def sampleFields : VField → PyVal := fun f =>
  match f with
  | .price => .vFloat 28995
  | .year => .vInt 2020
  | .mileage => .vInt 15234
  | _ => .vStr "x"

def sampleRecord : FreshRecord :=
  ⟨"1FTEW1EP5MKE00001", sampleFields, ["/media/1FTEW1EP5MKE00001/001.jpg"]⟩

def sampleVehicle : DBVehicle :=
  ⟨sampleFields, ["/media/1FTEW1EP5MKE00001/001.jpg"], true⟩

def sampleCatalog : List (String × DBVehicle) :=
  [("1FTEW1EP5MKE00001", sampleVehicle)]

def runningRow : ScrapeLogRow := ⟨"t1", "running", "Scrape starting (pages=1)..."⟩

def aliveState : TriggerState := ⟨[runningRow], [("t1", 42)]⟩

def retrySampleF : Nat → Except String Nat :=
  fun k => if k = 0 then .error "boom" else .ok 7

def retrySampleEs : Nat → String := fun k => toString k

def retrySampleC : Nat → Except String Nat := fun k => .error (retrySampleEs k)

def allWhite100 : RGBImage := ⟨100, 100, fun _ _ => (255, 255, 255)⟩

def tinyImage : RGBImage := ⟨10, 10, fun _ _ => (0, 0, 0)⟩


/-! ## Lemmas about the catalog association list -/

theorem lookupVin_setVin_ne (c : List (String × DBVehicle)) (vin k : String)
    (veh : DBVehicle) (h : k ≠ vin) :
    lookupVin (setVin c vin veh) k = lookupVin c k := by
  induction c with
  | nil => rfl
  | cons p rest ih =>
    obtain ⟨k', w⟩ := p
    by_cases hk : k' = vin
    · simp [setVin, lookupVin, hk, Ne.symm h]
    · simp [setVin, lookupVin, hk, ih]

theorem lookupVin_setVin_self (c : List (String × DBVehicle)) (vin : String)
    (veh w : DBVehicle) (h : lookupVin c vin = some w) :
    lookupVin (setVin c vin veh) vin = some veh := by
  induction c with
  | nil => simp [lookupVin] at h
  | cons p rest ih =>
    obtain ⟨k', u⟩ := p
    by_cases hk : k' = vin
    · simp [setVin, lookupVin, hk]
    · simp [setVin, lookupVin, hk] at h ⊢
      exact ih h

theorem setVin_keys (c : List (String × DBVehicle)) (vin : String) (veh : DBVehicle) :
    (setVin c vin veh).map Prod.fst = c.map Prod.fst := by
  induction c with
  | nil => rfl
  | cons p rest ih =>
    obtain ⟨k', u⟩ := p
    by_cases hk : k' = vin
    · simp [setVin, hk]
    · simp [setVin, hk, ih]

theorem lookupVin_append_ne (c : List (String × DBVehicle)) (k k' : String)
    (veh : DBVehicle) (h : k ≠ k') :
    lookupVin (c ++ [(k', veh)]) k = lookupVin c k := by
  induction c with
  | nil => simp [lookupVin, Ne.symm h]
  | cons p rest ih =>
    obtain ⟨k0, u⟩ := p
    by_cases hk : k0 = k
    · simp [lookupVin, hk]
    · simp [lookupVin, hk, ih]

theorem lookupVin_append_self (c : List (String × DBVehicle)) (k : String)
    (veh : DBVehicle) (h : lookupVin c k = none) :
    lookupVin (c ++ [(k, veh)]) k = some veh := by
  induction c with
  | nil => simp [lookupVin]
  | cons p rest ih =>
    obtain ⟨k0, u⟩ := p
    by_cases hk : k0 = k
    · simp [lookupVin, hk] at h
    · simp [lookupVin, hk] at h ⊢
      exact ih h

theorem lookupVin_eq_none_iff (c : List (String × DBVehicle)) (k : String) :
    lookupVin c k = none ↔ k ∉ c.map Prod.fst := by
  induction c with
  | nil => simp [lookupVin]
  | cons p rest ih =>
    obtain ⟨k0, u⟩ := p
    by_cases hk : k0 = k
    · simp [lookupVin, hk]
    · simp [lookupVin, hk, ih, Ne.symm hk]

theorem lookupVin_map_keyed (c : List (String × DBVehicle))
    (g : String → DBVehicle → DBVehicle) (k : String) :
    lookupVin (c.map (fun p => (p.1, g p.1 p.2))) k = (lookupVin c k).map (g k) := by
  induction c with
  | nil => rfl
  | cons p rest ih =>
    obtain ⟨k0, u⟩ := p
    by_cases hk : k0 = k
    · subst hk; simp [lookupVin]
    · simp [lookupVin, hk, ih]

/-! ## Lemmas about the upsert loop -/

theorem upsertOne_skip (st : RunState) (v : FreshRecord) (h : v.vin = "") :
    upsertOne st v = st := by
  simp [upsertOne, h]

theorem upsertOne_lookup_self (st : RunState) (v : FreshRecord) (h : v.vin ≠ "") :
    lookupVin (upsertOne st v).catalog v.vin = some ⟨v.fields, v.photos, true⟩ := by
  cases hl : lookupVin st.catalog v.vin with
  | some w => simp [upsertOne, h, hl, lookupVin_setVin_self _ _ _ _ hl]
  | none => simp [upsertOne, h, hl, lookupVin_append_self _ _ _ hl]

theorem upsertOne_lookup_ne (st : RunState) (v : FreshRecord) (k : String)
    (h : v.vin ≠ k) :
    lookupVin (upsertOne st v).catalog k = lookupVin st.catalog k := by
  by_cases hv : v.vin = ""
  · simp [upsertOne, hv]
  · cases hl : lookupVin st.catalog v.vin with
    | some w => simp [upsertOne, hv, hl, lookupVin_setVin_ne _ _ _ _ (Ne.symm h)]
    | none => simp [upsertOne, hv, hl, lookupVin_append_ne _ _ _ _ (Ne.symm h)]

theorem foldl_upsert_lookup_ne (s : List FreshRecord) (st : RunState) (k : String)
    (h : ∀ r ∈ s, r.vin ≠ k) :
    lookupVin (s.foldl upsertOne st).catalog k = lookupVin st.catalog k := by
  induction s generalizing st with
  | nil => rfl
  | cons a rest ih =>
    rw [List.foldl_cons, ih _ (fun r hr => h r (List.mem_cons_of_mem a hr)),
      upsertOne_lookup_ne st a k (h a (List.mem_cons_self a rest))]

theorem foldl_upsert_lookup_of_mem (s : List FreshRecord) (st : RunState)
    (r : FreshRecord) (hmem : r ∈ s) (hvin : r.vin ≠ "")
    (hnodup : (s.map FreshRecord.vin).Nodup) :
    lookupVin (s.foldl upsertOne st).catalog r.vin = some ⟨r.fields, r.photos, true⟩ := by
  induction s generalizing st with
  | nil => cases hmem
  | cons a rest ih =>
    rw [List.map_cons, List.nodup_cons] at hnodup
    rcases List.mem_cons.mp hmem with heq | hmem'
    · subst heq
      have hrest : ∀ x ∈ rest, x.vin ≠ r.vin := by
        intro x hx hcontra
        exact hnodup.1 (hcontra ▸ List.mem_map_of_mem FreshRecord.vin hx)
      rw [List.foldl_cons, foldl_upsert_lookup_ne rest _ r.vin hrest,
        upsertOne_lookup_self st r hvin]
    · rw [List.foldl_cons]
      exact ih (upsertOne st a) hmem' hnodup.2

theorem upsertOne_scraped (st : RunState) (v : FreshRecord) (h : v.vin ≠ "") :
    (upsertOne st v).scraped = st.scraped ++ [v.vin] := by
  cases hl : lookupVin st.catalog v.vin with
  | some w => simp [upsertOne, h, hl]
  | none => simp [upsertOne, h, hl]

theorem foldl_upsert_scraped (s : List FreshRecord) (st : RunState) :
    (s.foldl upsertOne st).scraped = st.scraped ++ scrapedOf s := by
  induction s generalizing st with
  | nil => simp [scrapedOf]
  | cons a rest ih =>
    by_cases hv : a.vin = ""
    · rw [List.foldl_cons, upsertOne_skip st a hv, ih]
      simp [scrapedOf, hv]
    · rw [List.foldl_cons, ih]
      simp [upsertOne_scraped st a hv, scrapedOf, hv]

/-- A fresh record whose values all equal the stored row's (within one
session, where no type coercion has intervened) yields no per-field
"updated" entries. -/

theorem updatedEntries_self (vin : String) (v : FreshRecord) (ph : List String)
    (b : Bool) :
    updatedEntries vin ⟨v.fields, ph, b⟩ v = [] := by
  simp [updatedEntries, trackedFields]

/-! ## Removal-phase lemmas -/

theorem removalPhase_lookup (scraped : List String) (cat : List (String × DBVehicle))
    (k : String) :
    lookupVin (removalPhase scraped cat).1 k =
      (lookupVin cat k).map (removalAdjust scraped k) := by
  exact lookupVin_map_keyed cat (removalAdjust scraped) k

theorem removalPhase_active_mem (scraped : List String)
    (cat : List (String × DBVehicle)) (p : String × DBVehicle)
    (hp : p ∈ (removalPhase scraped cat).1) (ha : p.2.is_active = true) :
    scraped.contains p.1 = true := by
  simp only [removalPhase, List.mem_map] at hp
  obtain ⟨q, hq, hpq⟩ := hp
  subst hpq
  by_cases hf : removedFlag scraped q.1 q.2 = true
  · simp [removalAdjust, hf] at ha
  · simp only [Bool.not_eq_true] at hf
    simp [removalAdjust, hf] at ha ⊢
    simp [removedFlag, ha] at hf
    simpa using hf

theorem mem_scrapedOf (s : List FreshRecord) (v : FreshRecord) (hmem : v ∈ s)
    (hvin : v.vin ≠ "") : v.vin ∈ scrapedOf s :=
  List.mem_map_of_mem _ (List.mem_filter.mpr ⟨hmem, by simp [hvin]⟩)

theorem scrapeRealRun_catalog_lookup (catalog : List (String × DBVehicle))
    (s : List FreshRecord) (v : FreshRecord) (hmem : v ∈ s) (hvin : v.vin ≠ "")
    (hnodup : (s.map FreshRecord.vin).Nodup) :
    lookupVin (scrapeRealRun catalog s).catalog v.vin =
      some ⟨v.fields, v.photos, true⟩ := by
  simp only [scrapeRealRun]
  rw [removalPhase_lookup, foldl_upsert_lookup_of_mem s _ v hmem hvin hnodup]
  have hc : v.vin ∈ (s.foldl upsertOne ⟨catalog, [], [], 0, 0, []⟩).scraped := by
    rw [foldl_upsert_scraped]
    simpa using mem_scrapedOf s v hmem hvin
  simp [removalAdjust, removedFlag, hc]

/-- C1.  The reconciliation of `scrape_real.main` is NOT idempotent,
contradicting the spec's idempotence and round-trip properties: starting
from an empty catalog, running the upsert loop on a one-record snapshot
(price 28995.0), committing, and running again with the identical
snapshot appends an "updated" Change Log Entry for `price` — old value
`"28995.00"` (str of the `Decimal` read back from the `Numeric(12, 2)`
column on SQLite), new value `"28995.0"` (str of the fresh float) — and
a new Price History Entry, where the claim requires zero of each.  The
first run behaves as specified (one "new" entry); the divergence is
introduced purely by the commit/reload type coercion. -/

theorem reconciliation_not_idempotent_price :
    (scrapeRealRun [] [sampleRecord]).changeLog =
      [⟨"1FTEW1EP5MKE00001", "new", none, none, none⟩] ∧
    (scrapeRealRun (commitReload (scrapeRealRun [] [sampleRecord]).catalog)
        [sampleRecord]).changeLog =
      [⟨"1FTEW1EP5MKE00001", "updated", some "price",
        some "28995.00", some "28995.0"⟩] ∧
    (scrapeRealRun (commitReload (scrapeRealRun [] [sampleRecord]).catalog)
        [sampleRecord]).priceHistory =
      [⟨"1FTEW1EP5MKE00001", .vFloat 28995⟩] :=
  ⟨by decide, by decide, by decide⟩

theorem upsertOne_log (st : RunState) (v : FreshRecord) :
    (upsertOne st v).log = st.log ++ upsertLogOf st.catalog v := by
  by_cases hv : v.vin = ""
  · simp [upsertOne, upsertLogOf, hv]
  · cases hl : lookupVin st.catalog v.vin with
    | some w => simp [upsertOne, upsertLogOf, hv, hl]
    | none => simp [upsertOne, upsertLogOf, hv, hl]

theorem mem_updatedEntries (vin : String) (ex : DBVehicle) (v : FreshRecord)
    (e : ChangeEntry) (he : e ∈ updatedEntries vin ex v) :
    e.change_type = "updated" ∧ e.vin = vin := by
  simp only [updatedEntries, List.mem_filterMap] at he
  obtain ⟨f, _, he⟩ := he
  by_cases h : (ex.fields f).normStr ≠ (v.fields f).normStr
  · rw [if_pos h] at he
    cases he
    exact ⟨rfl, rfl⟩
  · rw [if_neg h] at he
    cases he

theorem mem_upsertLogOf (catalog : List (String × DBVehicle)) (v : FreshRecord)
    (e : ChangeEntry) (he : e ∈ upsertLogOf catalog v) :
    (e.change_type = "updated" ∨ e.change_type = "reactivated" ∨
      e.change_type = "new") ∧ e.vin = v.vin := by
  by_cases hv : v.vin = ""
  · simp [upsertLogOf, hv] at he
  · cases hl : lookupVin catalog v.vin with
    | some w =>
      by_cases ha : w.is_active
      · simp [upsertLogOf, hv, hl, ha] at he
        obtain ⟨h1, h2⟩ := mem_updatedEntries v.vin w v e he
        exact ⟨Or.inl h1, h2⟩
      · simp [upsertLogOf, hv, hl, ha] at he
        rcases he with he | he
        · obtain ⟨h1, h2⟩ := mem_updatedEntries v.vin w v e he
          exact ⟨Or.inl h1, h2⟩
        · subst he
          exact ⟨Or.inr (Or.inl rfl), rfl⟩
    | none =>
      simp [upsertLogOf, hv, hl] at he
      subst he
      exact ⟨Or.inr (Or.inr rfl), rfl⟩

theorem countType_append (t x : String) (l1 l2 : List ChangeEntry) :
    countType t x (l1 ++ l2) = countType t x l1 + countType t x l2 := by
  simp [countType, List.filter_append]

theorem countType_eq_zero_of_all (t x : String) (l : List ChangeEntry)
    (h : ∀ e ∈ l, isEntryType t x e = false) : countType t x l = 0 := by
  simp only [countType, List.length_eq_zero]
  exact List.filter_eq_nil_iff.mpr (fun e he => by simp [h e he])

theorem countType_cons (t x : String) (e : ChangeEntry) (l : List ChangeEntry) :
    countType t x (e :: l) =
      (if isEntryType t x e = true then 1 else 0) + countType t x l := by
  simp only [countType, List.filter_cons]
  by_cases h : isEntryType t x e = true
  · simp [h, Nat.add_comm]
  · simp [h]

theorem upsertLogOf_count_removed (catalog : List (String × DBVehicle))
    (v : FreshRecord) (x : String) :
    countType "removed" x (upsertLogOf catalog v) = 0 := by
  apply countType_eq_zero_of_all
  intro e he
  obtain ⟨ht, _⟩ := mem_upsertLogOf catalog v e he
  rcases ht with h | h | h <;> simp [isEntryType, h]

theorem upsertLogOf_count_ne_vin (catalog : List (String × DBVehicle))
    (v : FreshRecord) (t x : String) (h : v.vin ≠ x) :
    countType t x (upsertLogOf catalog v) = 0 := by
  apply countType_eq_zero_of_all
  intro e he
  obtain ⟨_, hv⟩ := mem_upsertLogOf catalog v e he
  simp [isEntryType, hv, h]

theorem foldl_upsert_count_removed (s : List FreshRecord) (st : RunState) (x : String) :
    countType "removed" x (s.foldl upsertOne st).log =
      countType "removed" x st.log := by
  induction s generalizing st with
  | nil => rfl
  | cons a rest ih =>
    rw [List.foldl_cons, ih, upsertOne_log, countType_append,
      upsertLogOf_count_removed, Nat.add_zero]

theorem foldl_upsert_count_ne (s : List FreshRecord) (st : RunState) (t x : String)
    (h : ∀ r ∈ s, r.vin ≠ x) :
    countType t x (s.foldl upsertOne st).log = countType t x st.log := by
  induction s generalizing st with
  | nil => rfl
  | cons a rest ih =>
    rw [List.foldl_cons, ih _ (fun r hr => h r (List.mem_cons_of_mem a hr)),
      upsertOne_log, countType_append,
      upsertLogOf_count_ne_vin _ _ _ _ (h a (List.mem_cons_self a rest)), Nat.add_zero]

theorem updatedEntries_count_react (vin x : String) (ex : DBVehicle) (v : FreshRecord) :
    countType "reactivated" x (updatedEntries vin ex v) = 0 := by
  apply countType_eq_zero_of_all
  intro e he
  obtain ⟨ht, _⟩ := mem_updatedEntries vin ex v e he
  simp [isEntryType, ht]

theorem upsertLogOf_count_react_one (catalog : List (String × DBVehicle))
    (r : FreshRecord) (hvin : r.vin ≠ "") (w : DBVehicle)
    (hl : lookupVin catalog r.vin = some w) (hw : w.is_active = false) :
    countType "reactivated" r.vin (upsertLogOf catalog r) = 1 := by
  have hform : upsertLogOf catalog r = updatedEntries r.vin w r ++
      [⟨r.vin, "reactivated", some "is_active", some "False", some "True"⟩] := by
    simp [upsertLogOf, hvin, hl, hw]
  rw [hform, countType_append, updatedEntries_count_react]
  simp [countType, isEntryType]

theorem foldl_upsert_count_react (s : List FreshRecord) (st : RunState)
    (r : FreshRecord) (hmem : r ∈ s) (hvin : r.vin ≠ "")
    (hnodup : (s.map FreshRecord.vin).Nodup)
    (w : DBVehicle) (hl : lookupVin st.catalog r.vin = some w)
    (hw : w.is_active = false) :
    countType "reactivated" r.vin (s.foldl upsertOne st).log =
      countType "reactivated" r.vin st.log + 1 := by
  induction s generalizing st with
  | nil => cases hmem
  | cons a rest ih =>
    rw [List.map_cons, List.nodup_cons] at hnodup
    rcases List.mem_cons.mp hmem with heq | hmem'
    · subst heq
      have hrest : ∀ y ∈ rest, y.vin ≠ r.vin := fun y hy hc =>
        hnodup.1 (hc ▸ List.mem_map_of_mem FreshRecord.vin hy)
      rw [List.foldl_cons, foldl_upsert_count_ne rest _ _ _ hrest, upsertOne_log,
        countType_append, upsertLogOf_count_react_one st.catalog r hvin w hl hw]
    · have hne : a.vin ≠ r.vin := fun hc =>
        hnodup.1 (hc ▸ List.mem_map_of_mem FreshRecord.vin hmem')
      have hl' : lookupVin (upsertOne st a).catalog r.vin = some w := by
        rw [upsertOne_lookup_ne st a r.vin hne]; exact hl
      rw [List.foldl_cons, ih (upsertOne st a) hmem' hnodup.2 hl', upsertOne_log,
        countType_append, upsertLogOf_count_ne_vin _ _ _ _ hne, Nat.add_zero]

/-! ## Removal-log counting lemmas -/

theorem removal_log_count_notin (scraped : List String)
    (cat : List (String × DBVehicle)) (x : String)
    (hx : x ∉ cat.map Prod.fst) :
    countType "removed" x ((cat.filter (fun p => removedFlag scraped p.1 p.2)).map
      (fun p => removedEntryOf p.1)) = 0 := by
  apply countType_eq_zero_of_all
  intro e he
  simp only [List.mem_map, List.mem_filter] at he
  obtain ⟨p, ⟨hp, _⟩, hpe⟩ := he
  have hne : p.1 ≠ x := fun hc => hx (hc ▸ List.mem_map_of_mem Prod.fst hp)
  rw [← hpe]
  simp [isEntryType, removedEntryOf, hne]

theorem removal_log_count_one (scraped : List String)
    (cat : List (String × DBVehicle)) (x : String)
    (hkeys : (cat.map Prod.fst).Nodup) (w : DBVehicle)
    (hl : lookupVin cat x = some w) (hf : removedFlag scraped x w = true) :
    countType "removed" x ((cat.filter (fun p => removedFlag scraped p.1 p.2)).map
      (fun p => removedEntryOf p.1)) = 1 := by
  induction cat with
  | nil => simp [lookupVin] at hl
  | cons p rest ih =>
    obtain ⟨k, u⟩ := p
    rw [List.map_cons, List.nodup_cons] at hkeys
    by_cases hk : k = x
    · subst hk
      rw [show lookupVin ((k, u) :: rest) k = some u from by simp [lookupVin]] at hl
      injection hl with hl
      subst hl
      rw [List.filter_cons_of_pos (by simpa using hf), List.map_cons, countType_cons,
        if_pos (by simp [isEntryType, removedEntryOf]),
        removal_log_count_notin scraped rest k hkeys.1]
    · rw [show lookupVin ((k, u) :: rest) x = lookupVin rest x from by
        simp [lookupVin, hk]] at hl
      by_cases hfk : removedFlag scraped k u = true
      · rw [List.filter_cons_of_pos (by simpa using hfk), List.map_cons, countType_cons,
          if_neg (by simp [isEntryType, removedEntryOf, hk]), Nat.zero_add]
        exact ih hkeys.2 hl
      · rw [List.filter_cons_of_neg (by simpa using hfk)]
        exact ih hkeys.2 hl

theorem removal_log_count_not_removed (scraped : List String)
    (cat : List (String × DBVehicle)) (t x : String) (ht : t ≠ "removed") :
    countType t x ((cat.filter (fun p => removedFlag scraped p.1 p.2)).map
      (fun p => removedEntryOf p.1)) = 0 := by
  apply countType_eq_zero_of_all
  intro e he
  simp only [List.mem_map] at he
  obtain ⟨p, _, hpe⟩ := he
  rw [← hpe]
  simp only [isEntryType, removedEntryOf, Bool.and_eq_false_iff]
  left
  simpa using fun hc => ht hc.symm

/-! ## Key uniqueness is preserved by a run -/

theorem upsertOne_keys (st : RunState) (v : FreshRecord)
    (h : (st.catalog.map Prod.fst).Nodup) :
    ((upsertOne st v).catalog.map Prod.fst).Nodup := by
  by_cases hv : v.vin = ""
  · simpa [upsertOne, hv] using h
  · cases hl : lookupVin st.catalog v.vin with
    | some w => simpa [upsertOne, hv, hl, setVin_keys] using h
    | none =>
      have hnot : v.vin ∉ st.catalog.map Prod.fst := (lookupVin_eq_none_iff _ _).mp hl
      have hcat : (upsertOne st v).catalog =
          st.catalog ++ [(v.vin, ⟨v.fields, v.photos, true⟩)] := by
        simp [upsertOne, hv, hl]
      rw [hcat, List.map_append]
      refine List.nodup_append.mpr ⟨h, List.nodup_singleton _, ?_⟩
      intro a ha hb
      simp only [List.map_cons, List.map_nil, List.mem_singleton] at hb
      exact hnot (hb ▸ ha)

theorem foldl_upsert_keys (s : List FreshRecord) (st : RunState)
    (h : (st.catalog.map Prod.fst).Nodup) :
    ((s.foldl upsertOne st).catalog.map Prod.fst).Nodup := by
  induction s generalizing st with
  | nil => exact h
  | cons a rest ih =>
    rw [List.foldl_cons]
    exact ih (upsertOne st a) (upsertOne_keys st a h)

theorem removalPhase_keys (scraped : List String) (cat : List (String × DBVehicle)) :
    (removalPhase scraped cat).1.map Prod.fst = cat.map Prod.fst := by
  simp [removalPhase, List.map_map]

theorem scrapeRealRun_keys (catalog : List (String × DBVehicle))
    (s : List FreshRecord) (h : (catalog.map Prod.fst).Nodup) :
    ((scrapeRealRun catalog s).catalog.map Prod.fst).Nodup := by
  simp only [scrapeRealRun]
  rw [removalPhase_keys]
  exact foldl_upsert_keys s ⟨catalog, [], [], 0, 0, []⟩ h

/-- After a run whose snapshot does not contain a VIN, an active stored
row with that VIN is marked inactive (and its other columns are kept). -/

theorem scrapeRealRun_lookup_not_scraped (catalog : List (String × DBVehicle))
    (s : List FreshRecord) (x : String) (hx : x ∉ s.map FreshRecord.vin)
    (w : DBVehicle) (hl : lookupVin catalog x = some w) (hw : w.is_active = true) :
    lookupVin (scrapeRealRun catalog s).catalog x =
      some { w with is_active := false } := by
  simp only [scrapeRealRun]
  rw [removalPhase_lookup]
  have h1 : lookupVin (s.foldl upsertOne ⟨catalog, [], [], 0, 0, []⟩).catalog x
      = some w := by
    rw [foldl_upsert_lookup_ne s _ x
      (fun r hr hc => hx (hc ▸ List.mem_map_of_mem FreshRecord.vin hr))]
    exact hl
  rw [h1]
  have hscr : x ∉ (s.foldl upsertOne ⟨catalog, [], [], 0, 0, []⟩).scraped := by
    rw [foldl_upsert_scraped]
    intro hc
    simp only [List.nil_append, scrapedOf, List.mem_map, List.mem_filter] at hc
    obtain ⟨r, ⟨hr, _⟩, hrx⟩ := hc
    exact hx (hrx ▸ List.mem_map_of_mem FreshRecord.vin hr)
  simp [removalAdjust, removedFlag, hw, hscr]

theorem removalPhase_log (scraped : List String) (cat : List (String × DBVehicle)) :
    (removalPhase scraped cat).2.1 =
      (cat.filter (fun p => removedFlag scraped p.1 p.2)).map
        (fun p => removedEntryOf p.1) := rfl

/-- C5.  Removal/reactivation audit exactness: a VIN present in the
snapshot of run N, absent from run N+1's snapshot, and present again in
run N+2's snapshot (the catalog being mutated only by these runs)
receives exactly one "removed" Change Log Entry from run N+1 and exactly
one "reactivated" Change Log Entry from run N+2.  Snapshots carry
pairwise-distinct VINs and the initial catalog has unique VIN keys, as
the database's unique index guarantees. -/

theorem removal_reactivation_exact
    (c0 : List (String × DBVehicle)) (s1 s2 s3 : List FreshRecord)
    (r1 r3 : FreshRecord) (x : String)
    (hx : x ≠ "") (hkeys : (c0.map Prod.fst).Nodup)
    (hn1 : (s1.map FreshRecord.vin).Nodup)
    (hn3 : (s3.map FreshRecord.vin).Nodup)
    (hm1 : r1 ∈ s1) (hr1 : r1.vin = x)
    (h2 : x ∉ s2.map FreshRecord.vin)
    (hm3 : r3 ∈ s3) (hr3 : r3.vin = x) :
    countType "removed" x
      (scrapeRealRun (scrapeRealRun c0 s1).catalog s2).changeLog = 1 ∧
    countType "reactivated" x
      (scrapeRealRun (scrapeRealRun (scrapeRealRun c0 s1).catalog s2).catalog
        s3).changeLog = 1 := by
  subst hr1
  -- after run N the row is present and active
  have hA : lookupVin (scrapeRealRun c0 s1).catalog r1.vin =
      some ⟨r1.fields, r1.photos, true⟩ :=
    scrapeRealRun_catalog_lookup c0 s1 r1 hm1 hx hn1
  have hkeys1 : ((scrapeRealRun c0 s1).catalog.map Prod.fst).Nodup :=
    scrapeRealRun_keys c0 s1 hkeys
  constructor
  · -- run N+1 appends exactly one "removed" entry for the VIN
    show countType "removed" r1.vin
      ((s2.foldl upsertOne ⟨(scrapeRealRun c0 s1).catalog, [], [], 0, 0, []⟩).log ++
        (removalPhase _ _).2.1) = 1
    rw [countType_append, foldl_upsert_count_removed, removalPhase_log]
    have hlook2 : lookupVin
        (s2.foldl upsertOne
          ⟨(scrapeRealRun c0 s1).catalog, [], [], 0, 0, []⟩).catalog r1.vin =
        some ⟨r1.fields, r1.photos, true⟩ := by
      rw [foldl_upsert_lookup_ne s2 _ r1.vin
        (fun r hr hc => h2 (hc ▸ List.mem_map_of_mem FreshRecord.vin hr))]
      exact hA
    have hscr2 : r1.vin ∉
        (s2.foldl upsertOne
          ⟨(scrapeRealRun c0 s1).catalog, [], [], 0, 0, []⟩).scraped := by
      rw [foldl_upsert_scraped]
      intro hc
      simp only [List.nil_append, scrapedOf, List.mem_map, List.mem_filter] at hc
      obtain ⟨r, ⟨hr, _⟩, hrx⟩ := hc
      exact h2 (hrx ▸ List.mem_map_of_mem FreshRecord.vin hr)
    rw [removal_log_count_one _ _ r1.vin
      (foldl_upsert_keys s2 _ hkeys1) ⟨r1.fields, r1.photos, true⟩ hlook2
      (by simp [removedFlag, hscr2])]
    rfl
  · -- run N+2 appends exactly one "reactivated" entry for the VIN
    have hB : lookupVin
        (scrapeRealRun (scrapeRealRun c0 s1).catalog s2).catalog r1.vin =
        some ⟨r1.fields, r1.photos, false⟩ :=
      scrapeRealRun_lookup_not_scraped _ s2 r1.vin h2 ⟨r1.fields, r1.photos, true⟩ hA rfl
    show countType "reactivated" r1.vin
      ((s3.foldl upsertOne
        ⟨(scrapeRealRun (scrapeRealRun c0 s1).catalog s2).catalog, [], [], 0, 0, []⟩).log ++
        (removalPhase _ _).2.1) = 1
    rw [countType_append, removalPhase_log,
      removal_log_count_not_removed _ _ _ _ (by decide), Nat.add_zero]
    have := foldl_upsert_count_react s3
      ⟨(scrapeRealRun (scrapeRealRun c0 s1).catalog s2).catalog, [], [], 0, 0, []⟩
      r3 hm3 (hr3 ▸ hx) hn3 ⟨r1.fields, r1.photos, false⟩ (by rw [hr3]; exact hB) rfl
    rw [hr3] at this
    rw [this]
    rfl

/-- C9 (implicit).  In `scrape_real`'s reconciliation the Run Record's
`vehicles_updated` counter is incremented for every fresh record whose
VIN already exists in the catalog — even when zero tracked fields
changed, in which case the run appends no "updated" Change Log Entry for
that VIN, while the Celery path (`run_scrape` of `app/tasks.py`)
increments its `updated_count` only when a field changed and so counts
zero for the same input. -/

theorem vehicles_updated_vs_updated_entries
    (catalog : List (String × DBVehicle)) (v : FreshRecord)
    (existing : DBVehicle) (hvin : v.vin ≠ "")
    (hl : lookupVin catalog v.vin = some existing) :
    (scrapeRealRun catalog [v]).vehicles_updated = 1 ∧
    (existing.fields = v.fields → existing.photos = v.photos →
      existing.is_active = true →
      countType "updated" v.vin (scrapeRealRun catalog [v]).changeLog = 0 ∧
      (tasksRunCounts catalog [v]).updated_count = 0) := by
  constructor
  · simp [scrapeRealRun, upsertOne, hvin, hl]
  · intro hf hp ha
    have hex : existing = ⟨v.fields, v.photos, true⟩ := by
      cases existing
      simp only [DBVehicle.mk.injEq]
      exact ⟨hf, hp, ha⟩
    subst hex
    constructor
    · show countType "updated" v.vin
        ((List.foldl upsertOne ⟨catalog, [], [], 0, 0, []⟩ [v]).log ++
          (removalPhase _ _).2.1) = 0
      rw [countType_append, removalPhase_log,
        removal_log_count_not_removed _ _ _ _ (by decide), Nat.add_zero]
      rw [show (List.foldl upsertOne ⟨catalog, [], [], 0, 0, []⟩ [v]).log =
          upsertLogOf catalog v from by
        simp [List.foldl_cons, upsertOne_log]]
      have hform : upsertLogOf catalog v = [] := by
        simp [upsertLogOf, hvin, hl, updatedEntries_self]
      rw [hform]
      rfl
    · simp only [tasksRunCounts, List.foldl_cons, List.foldl_nil, tasksUpsertOne,
        hvin, hl]
      have hch : tasksChanged ⟨v.fields, v.photos, true⟩ v = false := by
        simp [tasksChanged]
      simp [hch]

/-- C2.  Drift detection correctness: for remote VIN set `R` (the VINs
found by the website scan) and local active VIN set `L`,
`_compare_inventory` reports `missing_locally = |R \ L|`,
`extra_locally = |L \ R|` and `matched = |R ∩ L|`. -/

theorem compare_inventory_counts (ws : List String) (ls : Finset String)
    (mp : Nat) :
    (_compare_inventory ws ls mp).missing_locally = (ws.toFinset \ ls).card ∧
    (_compare_inventory ws ls mp).extra_locally = (ls \ ws.toFinset).card ∧
    (_compare_inventory ws ls mp).matched = (ws.toFinset ∩ ls).card := by
  refine ⟨rfl, rfl, ?_⟩
  simp [_compare_inventory, Finset.length_sort]

/-- C6.  The Drift Monitor's `changed` count is zero for every remote
inventory state, local catalog state, and `max_pages`: `_compare_inventory`
initialises the counter to zero and never increments it. -/

theorem compare_inventory_changed_zero (ws : List String) (ls : Finset String)
    (mp : Nat) :
    (_compare_inventory ws ls mp).changed = 0 := rfl

/-- C3 counterexample.  The claim's zero-price rule fails at the
`build_vehicle_record` extraction path of `scrape_real.py`: the input
`"$0"` cleans to `"0"` and produces the price `0.0`, not null, whereas
`_parse_price` of the parser module does map it to null. -/

theorem zero_price_not_null_in_scrape_real :
    build_vehicle_record_price "$0" = some 0 ∧
    build_vehicle_record_price "$0" ≠ none ∧
    _parse_price (some "$0") = none :=
  ⟨by decide, by decide, by decide⟩

/-- C3 amended.  Both price paths strip every character except digits
and the decimal point (and the mileage paths strip to digits); in the
parser module a cleaned price of zero yields null, so
`"$28,995" ↦ 28995.00`, `"$0" ↦ null`, `"15,234 miles" ↦ 15234`; in
`build_vehicle_record` of `scrape_real.py` the same cleaning applies but
a cleaned price of `"0"` yields the float `0.0` rather than null. -/

theorem price_mileage_normalization :
    (∀ s : String, ∀ c ∈ (cleanPriceChars s).data, c.isDigit = true ∨ c = '.') ∧
    (∀ s : String, ∀ c ∈ (cleanDigitChars s).data, c.isDigit = true) ∧
    _parse_price (some "$28,995") = some 28995 ∧
    _parse_price (some "$0") = none ∧
    _parse_number (some "15,234 miles") = some 15234 ∧
    build_vehicle_record_price "$28,995" = some 28995 ∧
    build_vehicle_record_price "$0" = some 0 ∧
    build_vehicle_record_mileage "15,234 miles" = some 15234 := by
  refine ⟨?_, ?_, by decide, by decide, by decide, by decide, by decide, by decide⟩
  · intro s c hc
    simp only [cleanPriceChars, List.mem_filter] at hc
    rcases (Bool.or_eq_true _ _).mp hc.2 with h | h
    · exact Or.inl h
    · exact Or.inr (by simpa using h)
  · intro s c hc
    simp only [cleanDigitChars, List.mem_filter] at hc
    exact hc.2

/-- Witness for the amended C3 statement: the stripping clauses applied
at concrete inputs. -/

theorem price_mileage_normalization_witness :
    ('8'.isDigit = true ∨ '8' = '.') ∧ '5'.isDigit = true :=
  ⟨price_mileage_normalization.1 "$8" '8' (by decide),
   price_mileage_normalization.2.1 "5 miles" '5' (by decide)⟩

/-- C4.  Single-flight: when a Run Record with status "running" exists
and its recorded process is alive, `trigger_scrape` returns the
already-running conflict (HTTP 409) and leaves the state unchanged — in
particular no second Run Record is created; when the running record's
process is not alive (pid unknown, zero, or dead), that record is marked
failed and a new run is launched. -/

theorem trigger_scrape_single_flight (alive : Nat → Bool) (tid : String)
    (newPid : Nat) (pages : Nat) (st : TriggerState) (rl : ScrapeLogRow)
    (hrun : firstRunning st.logs = some rl) :
    (∀ pid, lookupPid st.pids rl.task_id = some pid → pid ≠ 0 →
      alive pid = true →
      trigger_scrape alive tid newPid pages st = (.conflict rl.task_id, st)) ∧
    ((lookupPid st.pids rl.task_id = none ∨
        ∃ pid, lookupPid st.pids rl.task_id = some pid ∧
          (pid = 0 ∨ alive pid = false)) →
      trigger_scrape alive tid newPid pages st =
        (.launched tid,
         ⟨newRunRow tid (if pages = 0 then "all" else toString pages) ::
            markFirstRunningFailed st.logs,
          st.pids ++ [(tid, newPid)]⟩)) := by
  constructor
  · intro pid hpid hz halive
    simp [trigger_scrape, hrun, hpid, hz, halive]
  · intro hstale
    rcases hstale with hnone | ⟨pid, hpid, hdead⟩
    · simp [trigger_scrape, hrun, hnone]
    · rcases hdead with hz | hdead
      · subst hz
        simp [trigger_scrape, hrun, hpid]
      · simp [trigger_scrape, hrun, hpid, hdead]

theorem retryLoop_success {E A : Type} (f : Nat → Except E A)
    (max_retries : Nat) (base : ℚ) (jit : Nat → ℚ) (d : Nat) (a : A) :
    ∀ (attempt fuel : Nat) (last : Option E) (sleeps : List ℚ),
    d < fuel →
    (∀ i, i < d → ∃ e, f (attempt + i) = .error e) →
    (∀ i, i < d → attempt + i < max_retries - 1) →
    f (attempt + d) = .ok a →
    retryLoop f max_retries base jit attempt fuel last sleeps =
      (.ok a, sleeps ++ (List.range d).map
        (fun i => base * 2 ^ (attempt + i) + jit (attempt + i))) := by
  induction d with
  | zero =>
    intro attempt fuel last sleeps hfuel _ _ hok
    obtain ⟨fuel', rfl⟩ := Nat.exists_eq_add_of_lt hfuel
    rw [Nat.add_zero] at hok
    simp [retryLoop, hok]
  | succ d ih =>
    intro attempt fuel last sleeps hfuel herr hlt hok
    obtain ⟨e, he⟩ := herr 0 (Nat.succ_pos d)
    rw [Nat.add_zero] at he
    obtain ⟨fuel', rfl⟩ := Nat.exists_eq_add_of_lt hfuel
    simp only [retryLoop, he]
    rw [if_pos (by simpa using hlt 0 (Nat.succ_pos d))]
    rw [ih (attempt + 1) (d + 1 + fuel') (some e)
      (sleeps ++ [base * 2 ^ attempt + jit attempt])
      (by omega)
      (fun i hi => by
        have := herr (i + 1) (by omega)
        simpa [Nat.add_assoc, Nat.add_comm 1 i] using this)
      (fun i hi => by
        have := hlt (i + 1) (by omega)
        omega)
      (by
        have : attempt + 1 + d = attempt + (d + 1) := by omega
        rw [this]; exact hok)]
    rw [List.append_assoc]
    congr 1
    rw [List.range_succ_eq_map, List.map_cons, List.map_map, List.singleton_append]
    simp only [Nat.add_zero]
    rw [List.append_right_inj]
    refine List.cons_eq_cons.mpr ⟨rfl, ?_⟩
    apply List.map_congr_left
    intro i _
    simp only [Function.comp_apply, Nat.succ_eq_add_one]
    have h : attempt + 1 + i = attempt + (i + 1) := by omega
    rw [h]

theorem retryLoop_exhaust {E A : Type} (f : Nat → Except E A)
    (max_retries : Nat) (base : ℚ) (jit : Nat → ℚ) (es : Nat → E) :
    ∀ (fuel attempt : Nat) (last : Option E) (sleeps : List ℚ),
    1 ≤ fuel →
    (∀ i, i < fuel → f (attempt + i) = .error (es (attempt + i))) →
    (retryLoop f max_retries base jit attempt fuel last sleeps).1 =
      .error (some (es (attempt + fuel - 1))) := by
  intro fuel
  induction fuel with
  | zero => intro attempt last sleeps h; omega
  | succ fuel ih =>
    intro attempt last sleeps _ herr
    have he := herr 0 (Nat.succ_pos fuel)
    rw [Nat.add_zero] at he
    simp only [retryLoop, he]
    rcases Nat.eq_zero_or_pos fuel with h0 | hpos
    · subst h0
      simp [retryLoop]
    · have harg : attempt + 1 + fuel - 1 = attempt + (fuel + 1) - 1 := by omega
      rw [ih (attempt + 1) (some (es attempt)) _ hpos (fun i hi => by
        have := herr (i + 1) (by omega)
        simpa [Nat.add_assoc, Nat.add_comm 1 i] using this), harg]

/-- C7.  Retry semantics of `retry_with_backoff`: (a) the result of the
first successful attempt is returned, after sleeping
`base_delay * 2 ^ k + jitter` for every failed attempt `k` (all of which
precede attempt `max_retries - 1`); (b) with jitter drawn from `[0, 1)`
every recorded sleep lies in `[base·2^j, base·2^j + 1)`; (c) when all
`max_retries ≥ 1` attempts fail, the exception of the last attempt is
re-raised. -/

theorem retry_with_backoff_spec {E A : Type} (f : Nat → Except E A)
    (max_retries : Nat) (base : ℚ) (jit : Nat → ℚ) :
    (∀ (k : Nat) (a : A), k < max_retries →
      (∀ j, j < k → ∃ e, f j = .error e) → f k = .ok a →
      retry_with_backoff f max_retries base jit =
        (.ok a, (List.range k).map (fun j => base * 2 ^ j + jit j))) ∧
    ((∀ n, 0 ≤ jit n ∧ jit n < 1) →
      ∀ (k : Nat) (a : A), k < max_retries →
        (∀ j, j < k → ∃ e, f j = .error e) → f k = .ok a →
        ∀ q ∈ (retry_with_backoff f max_retries base jit).2,
          ∃ j, j < k ∧ base * 2 ^ j ≤ q ∧ q < base * 2 ^ j + 1) ∧
    (∀ es : Nat → E, 1 ≤ max_retries →
      (∀ j, j < max_retries → f j = .error (es j)) →
      (retry_with_backoff f max_retries base jit).1 =
        .error (some (es (max_retries - 1)))) := by
  have hsucc : ∀ (k : Nat) (a : A), k < max_retries →
      (∀ j, j < k → ∃ e, f j = .error e) → f k = .ok a →
      retry_with_backoff f max_retries base jit =
        (.ok a, (List.range k).map (fun j => base * 2 ^ j + jit j)) := by
    intro k a hk herr hok
    have h := retryLoop_success f max_retries base jit k a 0 max_retries none [] hk
      (fun i hi => by simpa using herr i hi)
      (fun i hi => by omega)
      (by simpa using hok)
    simpa [retry_with_backoff] using h
  refine ⟨hsucc, ?_, ?_⟩
  · intro hj k a hk herr hok q hq
    rw [hsucc k a hk herr hok] at hq
    simp only [List.mem_map, List.mem_range] at hq
    obtain ⟨j, hjk, hqe⟩ := hq
    refine ⟨j, hjk, ?_, ?_⟩
    · rw [← hqe]
      exact le_add_of_nonneg_right (hj j).1
    · rw [← hqe]
      have := (hj j).2
      linarith
  · intro es hmax herr
    have h := retryLoop_exhaust f max_retries base jit es max_retries 0 none [] hmax
      (fun i hi => by simpa using herr i hi)
    simpa [retry_with_backoff] using h

theorem sum_map_list_range (f : Nat → Nat) (n : Nat) :
    ((List.range n).map f).sum = ∑ i in Finset.range n, f i := by
  induction n with
  | zero => rfl
  | succ n ih =>
    rw [List.range_succ, List.map_append, List.sum_append, Finset.sum_range_succ, ih]
    simp

theorem length_filter_list_range (p : Nat → Bool) (n : Nat) :
    ((List.range n).filter p).length =
      ((Finset.range n).filter (fun i => p i = true)).card := by
  induction n with
  | zero => rfl
  | succ n ih =>
    rw [List.range_succ, List.filter_append, List.length_append,
      Finset.range_succ, Finset.filter_insert]
    by_cases h : p n = true
    · rw [if_pos h, Finset.card_insert_of_not_mem (by simp)]
      simp [h, ih]
    · rw [if_neg h]
      simp [h, ih]

theorem brightCount_eq_card (img : RGBImage) (r0 rows c0 cols : Nat) :
    brightCount img r0 rows c0 cols =
      (((Finset.range rows) ×ˢ (Finset.range cols)).filter
        (fun p => isBrightPx (img.px (r0 + p.1) (c0 + p.2)) = true)).card := by
  rw [brightCount, Finset.card_filter, Finset.sum_product]
  rw [sum_map_list_range
    (fun i => ((List.range cols).filter (fun j => isBrightPx (img.px (r0 + i) (c0 + j)))).length)
    rows]
  apply Finset.sum_congr rfl
  intro i _
  rw [length_filter_list_range, Finset.card_filter]

/-- C8.  Watermark classification and removal: a decoded image at least
100 px in each dimension is classified watermarked iff the top-left band
(top 12% of rows × left 30% of columns) has a bright-pixel percentage
above 40 and the bottom-right band (bottom 7% of rows × right 50% of
columns) has one above 30; for an image classified watermarked, removal
returns the crop from row `⌊13%·h⌋` to row `h − ⌊7%·h⌋` across the full
width. -/

theorem watermark_detection_and_crop (img : RGBImage)
    (hh : 100 ≤ img.h) (hw : 100 ≤ img.w) :
    (has_dealer_frame img = true ↔
      40 < bandBrightRatio img 0 (img.h * 12 / 100) 0 (img.w * 30 / 100) ∧
      30 < bandBrightRatio img (img.h - img.h * 7 / 100) (img.h * 7 / 100)
        (img.w - img.w * 50 / 100) (img.w * 50 / 100)) ∧
    (has_dealer_frame img = true →
      (remove_dealer_frame img).h = (img.h - img.h * 7 / 100) - img.h * 13 / 100 ∧
      (remove_dealer_frame img).w = img.w ∧
      ∀ i j, (remove_dealer_frame img).px i j = img.px (img.h * 13 / 100 + i) j) := by
  have hguard : ¬(img.h < 100 ∨ img.w < 100) := by omega
  constructor
  · rw [has_dealer_frame, if_neg hguard]
    rw [Bool.and_eq_true, decide_eq_true_iff, decide_eq_true_iff]
    rw [bandBrightRatio, bandBrightRatio, brightCount_eq_card, brightCount_eq_card]
  · intro _
    rw [remove_dealer_frame, if_neg hguard]
    exact ⟨rfl, by simp [cropImage], fun i j => by simp [cropImage]⟩

/-- C10 (implicit).  The dealer-frame functions are total at their byte
interface: when the bytes cannot be decoded to a pixel grid (any
exception of the blanket handler), `has_dealer_frame` returns `False`
and `remove_dealer_frame` returns the input unchanged; and for a
decodable image with height or width under 100 px, `has_dealer_frame`
returns `False` and `remove_dealer_frame` returns the input unchanged.
Exceptions are modelled by the `Option`-valued decode/encode oracles, so
totality of the Lean functions mirrors that neither Python function can
raise. -/

theorem dealer_frame_total (decode : List Nat → Option RGBImage)
    (encodeJpeg : RGBImage → Option (List Nat)) (bs : List Nat) :
    (decode bs = none →
      has_dealer_frame_bytes decode bs = false ∧
      remove_dealer_frame_bytes decode encodeJpeg bs = bs) ∧
    (∀ img, decode bs = some img → (img.h < 100 ∨ img.w < 100) →
      has_dealer_frame_bytes decode bs = false ∧
      remove_dealer_frame_bytes decode encodeJpeg bs = bs) := by
  constructor
  · intro h
    constructor
    · simp [has_dealer_frame_bytes, h]
    · simp [remove_dealer_frame_bytes, h]
  · intro img h hsmall
    constructor
    · simp [has_dealer_frame_bytes, h, has_dealer_frame, hsmall]
    · simp [remove_dealer_frame_bytes, h, hsmall]

/-- Witness for C5: one VIN through runs present/absent/present. -/

theorem removal_reactivation_exact_witness :
    countType "removed" "1FTEW1EP5MKE00001"
      (scrapeRealRun (scrapeRealRun [] [sampleRecord]).catalog []).changeLog = 1 ∧
    countType "reactivated" "1FTEW1EP5MKE00001"
      (scrapeRealRun (scrapeRealRun (scrapeRealRun [] [sampleRecord]).catalog []).catalog
        [sampleRecord]).changeLog = 1 :=
  removal_reactivation_exact [] [sampleRecord] [] [sampleRecord] sampleRecord
    sampleRecord "1FTEW1EP5MKE00001" (by decide) (by decide) (by decide) (by decide)
    (List.mem_singleton.mpr rfl) rfl (by decide) (List.mem_singleton.mpr rfl) rfl

/-- Witness for C9 at a catalog already holding the identical record. -/

theorem vehicles_updated_vs_updated_entries_witness :
    (scrapeRealRun sampleCatalog [sampleRecord]).vehicles_updated = 1 ∧
    countType "updated" sampleRecord.vin
      (scrapeRealRun sampleCatalog [sampleRecord]).changeLog = 0 ∧
    (tasksRunCounts sampleCatalog [sampleRecord]).updated_count = 0 :=
  ⟨(vehicles_updated_vs_updated_entries sampleCatalog sampleRecord sampleVehicle
      (by decide) rfl).1,
   (vehicles_updated_vs_updated_entries sampleCatalog sampleRecord sampleVehicle
      (by decide) rfl).2 rfl rfl rfl⟩

/-- Witness for C4: a live running record yields the conflict and an
unchanged state; a dead one is marked failed and a new run is added. -/

theorem trigger_scrape_single_flight_witness :
    trigger_scrape (fun _ => true) "t2" 43 1 aliveState =
      (.conflict "t1", aliveState) ∧
    trigger_scrape (fun _ => false) "t2" 43 1 aliveState =
      (.launched "t2",
       ⟨newRunRow "t2" (if 1 = 0 then "all" else toString 1) ::
          markFirstRunningFailed aliveState.logs,
        aliveState.pids ++ [("t2", 43)]⟩) :=
  ⟨(trigger_scrape_single_flight (fun _ => true) "t2" 43 1 aliveState runningRow
      rfl).1 42 rfl (by decide) rfl,
   (trigger_scrape_single_flight (fun _ => false) "t2" 43 1 aliveState runningRow
      rfl).2 (Or.inr ⟨42, rfl, Or.inr rfl⟩)⟩

/-- Witness for C7: success on the second attempt with one backoff
sleep, and exhaustion re-raising the last error. -/

theorem retry_with_backoff_spec_witness :
    retry_with_backoff retrySampleF 3 2 (fun _ => 0) =
      (.ok 7, (List.range 1).map (fun j => (2 : ℚ) * 2 ^ j + 0)) ∧
    (retry_with_backoff retrySampleC 3 2 (fun _ => 0)).1 =
      .error (some (retrySampleEs 2)) :=
  ⟨(retry_with_backoff_spec retrySampleF 3 2 (fun _ => 0)).1 1 7 (by omega)
      (fun j hj => ⟨"boom", by
        have h0 := Nat.lt_one_iff.mp hj
        subst h0
        rfl⟩) rfl,
   (retry_with_backoff_spec retrySampleC 3 2 (fun _ => 0)).2.2 retrySampleEs
      (by omega) (fun j _ => rfl)⟩

/-- Witness for C8: a uniformly white 100 × 100 image is classified
watermarked, and its crop has height 80 and full width. -/

theorem watermark_detection_and_crop_witness :
    has_dealer_frame allWhite100 = true ∧
    (remove_dealer_frame allWhite100).h = 80 ∧
    (remove_dealer_frame allWhite100).w = 100 := by
  have h := watermark_detection_and_crop allWhite100 (by decide) (by decide)
  have h1 : bandBrightRatio allWhite100 0 (allWhite100.h * 12 / 100) 0
      (allWhite100.w * 30 / 100) = 100 := by
    rw [show allWhite100.h * 12 / 100 = 12 from rfl,
      show allWhite100.w * 30 / 100 = 30 from rfl, bandBrightRatio]
    have hfull : Finset.filter
        (fun p => isBrightPx (allWhite100.px (0 + p.1) (0 + p.2)) = true)
        (Finset.range 12 ×ˢ Finset.range 30) = Finset.range 12 ×ˢ Finset.range 30 :=
      Finset.filter_true_of_mem (fun p _ => rfl)
    rw [hfull]
    simp
  have h2 : bandBrightRatio allWhite100 (allWhite100.h - allWhite100.h * 7 / 100)
      (allWhite100.h * 7 / 100) (allWhite100.w - allWhite100.w * 50 / 100)
      (allWhite100.w * 50 / 100) = 100 := by
    rw [show allWhite100.h - allWhite100.h * 7 / 100 = 93 from rfl,
      show allWhite100.h * 7 / 100 = 7 from rfl,
      show allWhite100.w - allWhite100.w * 50 / 100 = 50 from rfl,
      show allWhite100.w * 50 / 100 = 50 from rfl, bandBrightRatio]
    have hfull : Finset.filter
        (fun p => isBrightPx (allWhite100.px (93 + p.1) (50 + p.2)) = true)
        (Finset.range 7 ×ˢ Finset.range 50) = Finset.range 7 ×ˢ Finset.range 50 :=
      Finset.filter_true_of_mem (fun p _ => rfl)
    rw [hfull]
    simp
  have hdet : has_dealer_frame allWhite100 = true :=
    h.1.mpr ⟨by rw [h1]; norm_num, by rw [h2]; norm_num⟩
  obtain ⟨hhh, hww, _⟩ := h.2 hdet
  refine ⟨hdet, ?_, ?_⟩
  · rw [hhh]
    decide
  · rw [hww]
    decide

/-- Witness for C10: undecodable bytes and a tiny decodable image both
pass through unchanged. -/

theorem dealer_frame_total_witness :
    (has_dealer_frame_bytes (fun _ => none) [0] = false ∧
     remove_dealer_frame_bytes (fun _ => none) (fun _ => none) [0] = [0]) ∧
    (has_dealer_frame_bytes (fun _ => some tinyImage) [1] = false ∧
     remove_dealer_frame_bytes (fun _ => some tinyImage) (fun _ => none) [1] = [1]) :=
  ⟨(dealer_frame_total (fun _ => none) (fun _ => none) [0]).1 rfl,
   (dealer_frame_total (fun _ => some tinyImage) (fun _ => none) [1]).2 tinyImage
     rfl (Or.inl (by decide))⟩
